import Mathlib

/-!
Verification of the KartingApp real-time timing core against its code.

The definitions below are a shallow embedding of
`backend/app/analyzers/karting_parser.py` (class `KartingMessageParser`) and
`backend/app/services/websocket_manager.py` (class `ConnectionManager`).
Python dicts are embedded as insertion-ordered association lists whose
assignment replaces an existing key in place; Python tuples as pairs; the
BeautifulSoup HTML parse is an explicit parameter `soup` mapping the raw HTML
text to its row structure (the library is an external dependency of the code);
wall-clock timestamps are an explicit `now` argument.
-/

namespace Karting

/-! ## Association lists with Python dict semantics -/

/-- Python `d.get(k)`: first (unique) binding of `k`. -/
def alistGet? {κ α : Type} [DecidableEq κ] : List (κ × α) → κ → Option α
  | [], _ => none
  | (k', v') :: t, k => if k' = k then some v' else alistGet? t k

/-- Python `d.get(k, dflt)`. -/
def alistGetD {κ α : Type} [DecidableEq κ] (l : List (κ × α)) (k : κ) (dflt : α) : α :=
  (alistGet? l k).getD dflt

/-- Python `d[k] = v`: replace in place, else append (dicts keep insertion order). -/
def alistSet {κ α : Type} [DecidableEq κ] : List (κ × α) → κ → α → List (κ × α)
  | [], k, v => [(k, v)]
  | (k', v') :: t, k, v => if k' = k then (k, v) :: t else (k', v') :: alistSet t k v

/-- Python `del d[k]` (no error when absent, mirroring guarded deletes). -/
def alistRemove {κ α : Type} [DecidableEq κ] : List (κ × α) → κ → List (κ × α)
  | [], _ => []
  | (k', v') :: t, k => if k' = k then alistRemove t k else (k', v') :: alistRemove t k

/-- Keys of an association list, in order. -/
def alistKeys {κ α : Type} (l : List (κ × α)) : List κ := l.map Prod.fst

/-! ## String helpers mirroring the Python operations used by the code

They are written as structural recursions over the character list of the
string so that every concrete computation reduces in the kernel. -/

/-- `l` is a prefix of `r` (character lists). -/
def isPrefixList : List Char → List Char → Bool
  | [], _ => true
  | _ :: _, [] => false
  | a :: as, b :: bs => a == b && isPrefixList as bs

/-- Python `s.startswith(pre)`. -/
def pyStartsWith (s pre : String) : Bool := isPrefixList pre.data s.data

/-- Python `s.endswith(suf)`. -/
def pyEndsWith (s suf : String) : Bool := isPrefixList suf.data.reverse s.data.reverse

/-- The scanner behind `pySplit`: cut at each leftmost occurrence of `sep`.
The fuel argument dominates the number of steps (each step consumes at least
one character), keeping the recursion structural. -/
def pySplitGo (sep : List Char) : Nat → List Char → List Char → List (List Char)
  | 0, l, acc => [acc.reverse ++ l]
  | _ + 1, [], acc => [acc.reverse]
  | fuel + 1, c :: rest, acc =>
    if isPrefixList sep (c :: rest) && !sep.isEmpty then
      acc.reverse :: pySplitGo sep fuel ((c :: rest).drop sep.length) []
    else pySplitGo sep fuel rest (c :: acc)

/-- Python `s.split(sep)` for a non-empty separator. -/
def pySplit (s sep : String) : List String :=
  (pySplitGo sep.data (s.data.length + 1) s.data []).map (fun l => ⟨l⟩)

/-- The whitespace characters stripped by Python `str.strip()` (ASCII part). -/
def pyWhitespace (c : Char) : Bool :=
  c == ' ' || c == '\t' || c == '\n' || c == '\r' || c == '\x0b' || c == '\x0c'

/-- Python `s.strip()`. -/
def pyStrip (s : String) : String :=
  ⟨((s.data.dropWhile pyWhitespace).reverse.dropWhile pyWhitespace).reverse⟩

/-- Python `s.upper()` on one character (ASCII). -/
def pyCharUpper (c : Char) : Char :=
  if 97 ≤ c.toNat && c.toNat ≤ 122 then Char.ofNat (c.toNat - 32) else c

/-- Python `s.lower()` on one character (ASCII). -/
def pyCharLower (c : Char) : Char :=
  if 65 ≤ c.toNat && c.toNat ≤ 90 then Char.ofNat (c.toNat + 32) else c

/-- Python `s.upper()`. -/
def pyUpper (s : String) : String := ⟨s.data.map pyCharUpper⟩

/-- Python `s.lower()`. -/
def pyLower (s : String) : String := ⟨s.data.map pyCharLower⟩

/-- Python `s[n:]`. -/
def pyDrop (s : String) (n : Nat) : String := ⟨s.data.drop n⟩

/-- Python `pat in s` (substring containment, `pat` non-empty at every use
site): splitting on `pat` yields more than one part iff `pat` occurs. -/
def strContains (s pat : String) : Bool := (pySplit s pat).length != 1

/-! ## Lexicon: `COLUMN_TRANSLATIONS` from `karting_parser.py` -/

/-- The multilingual header lexicon, entry for entry, in source order. -/
def COLUMN_TRANSLATIONS : List (String × String) :=
  [("Clt", "Classement"), ("Pos", "Classement"), ("Position", "Classement"),
   ("Rk", "Classement"), ("Rang", "Classement"), ("Rank", "Classement"),
   ("Classement", "Classement"),
   ("Pilote", "Pilote"), ("Driver", "Pilote"), ("Fahrer", "Pilote"),
   ("Pilota", "Pilote"), ("Conducente", "Pilote"),
   ("Kart", "Kart"), ("No", "Kart"), ("Num", "Kart"), ("Number", "Kart"),
   ("Dernier T.", "Dernier T."), ("Last", "Dernier T."), ("Letzte", "Dernier T."),
   ("Ultimo", "Dernier T."), ("Last Time", "Dernier T."),
   ("Meilleur T.", "Meilleur T."), ("Best", "Meilleur T."), ("Beste", "Meilleur T."),
   ("Migliore", "Meilleur T."), ("Best Time", "Meilleur T."),
   ("Ecart", "Ecart"), ("Gap", "Ecart"), ("Abstand", "Ecart"),
   ("Ritardo", "Ecart"), ("Diferencia", "Ecart"),
   ("Tours", "Tours"), ("Laps", "Tours"), ("Runden", "Tours"),
   ("Giri", "Tours"), ("Vueltas", "Tours"),
   ("Nation", "Nation"), ("Country", "Nation"), ("Land", "Nation"),
   ("Paese", "Nation"), ("País", "Nation"),
   ("", "Statut"),
   ("Practice", "Practice"), ("Essai", "Practice"), ("Training", "Practice"),
   ("Session", "Session"), ("Time", "Time"), ("Temps", "Time"),
   ("Lap", "Tours"), ("Lap Time", "Dernier T."), ("Tour", "Tours"),
   ("Name", "Pilote"), ("Nom", "Pilote"), ("Team", "Equipe"), ("Équipe", "Equipe")]

/-! ## Parser data model -/

/-- One entry of `updates[driver_id]['raw_columns']`. -/
structure RawCol where
  code : String
  value : String
  column_number : String
deriving DecidableEq, Repr

/-- A value of a mapped driver record: a plain string, or a raw-debug dict. -/
inductive MVal where
  | s (v : String)
  | raw (c : RawCol)
  | rawPair (code value : String)
deriving DecidableEq, Repr

/-- A mapped driver record (`mapped_driver` dict). -/
abbrev Record := List (String × MVal)

/-- One entry of the `updates` dict returned by the two frame parsers. -/
structure DUpdate where
  driver_id : String
  raw_columns : List (String × RawCol)
  timestamp : String
deriving DecidableEq, Repr

/-- The `updates` dict: driver id to update entry. -/
abbrev Updates := List (String × DUpdate)

/-- The mutable fields of `KartingMessageParser`. -/
structure ParserState where
  circuit_mappings : List (String × String)
  driver_states : List (String × Record)
  raw_data : List (String × List (String × (String × String)))
  message_count : Nat
  last_update : Option String
deriving DecidableEq, Repr

/-- `KartingMessageParser.__init__(circuit_mappings)`. -/
def initParser (circuit_mappings : List (String × String)) : ParserState :=
  { circuit_mappings := circuit_mappings
    driver_states := []
    raw_data := []
    message_count := 0
    last_update := none }

/-- `self.raw_data[driver_id][column_key] = cell` (creating the inner dict on demand). -/
def rawDataSet (rd : List (String × List (String × (String × String))))
    (driver_id column_key : String) (cell : String × String) :
    List (String × List (String × (String × String))) :=
  alistSet rd driver_id (alistSet (alistGetD rd driver_id []) column_key cell)

/-! ## `_parse_pipe_format` -/

/-- The body of the per-line loop of `_parse_pipe_format`. -/
def processPipeLine (now : String) (acc : ParserState × Updates) (line0 : String) :
    ParserState × Updates :=
  let line := pyStrip line0
  if line = "" then acc
  else
    match pySplit line "|" with
    | [ident, code, value] =>
      if pyStartsWith ident "r" && strContains ident "c" then
        match pySplit ident "c" with
        | [pilot_raw, col] =>
          let driver_id := pyDrop pilot_raw 1
          let column_key := "C" ++ col
          let st := { acc.1 with
            raw_data := rawDataSet acc.1.raw_data driver_id column_key (code, value) }
          let entry := alistGetD acc.2 driver_id
            { driver_id := driver_id, raw_columns := [], timestamp := now }
          let entry := { entry with
            raw_columns := alistSet entry.raw_columns column_key
              { code := code, value := value, column_number := col } }
          (st, alistSet acc.2 driver_id entry)
        | _ => acc
      else acc
    | _ => acc

/-- `KartingMessageParser._parse_pipe_format`. -/
def parse_pipe_format (now : String) (st : ParserState) (message : String) :
    ParserState × Updates :=
  (pySplit (pyStrip message) "\n").foldl (processPipeLine now) (st, [])

/-! ## HTML model and `_parse_html_grid` -/

/-- A `<td>` cell: its `data-id` attribute (if any) and its text content. -/
structure HCell where
  dataId : Option String
  text : String
deriving DecidableEq, Repr

/-- A `<tr>` row: its `data-id` attribute (if any) and its cells. -/
structure HRow where
  dataId : Option String
  cells : List HCell
deriving DecidableEq, Repr

/-- The parsed HTML document: its rows, in document order. -/
abbrev Html := List HRow

/-- The header cells considered by `_extract_column_mappings_from_header`:
`find_all('td', data-id truthy and starting with 'c')`. -/
def headerCellsOf (header : HRow) : List HCell :=
  header.cells.filter fun c =>
    match c.dataId with
    | some s => s ≠ "" && pyStartsWith s "c"
    | none => false

/-- The key a header cell contributes: its upper-cased `data-id` (`C1`, …). -/
def headerCellKey (c : HCell) : String := pyUpper (c.dataId.getD "")

/-- The field a header cell contributes: the lexicon translation when the
(truthy) lookup hits, the stripped cell text verbatim otherwise. -/
def headerCellField (c : HCell) : String :=
  let column_text := pyStrip c.text
  match alistGet? COLUMN_TRANSLATIONS column_text with
  | some normalized => if normalized = "" then column_text else normalized
  | none => column_text

/-- The `detected_mappings` dict built by `_extract_column_mappings_from_header`. -/
def detectedMappingsOf (header : HRow) : List (String × String) :=
  (headerCellsOf header).foldl
    (fun m c => alistSet m (headerCellKey c) (headerCellField c)) []

/-- `KartingMessageParser._extract_column_mappings_from_header`: replaces the
active mappings and returns `true` when at least 3 columns were detected. -/
def extract_column_mappings_from_header (st : ParserState) (header : HRow) :
    ParserState × Bool :=
  let detected := detectedMappingsOf header
  if 3 ≤ detected.length then ({ st with circuit_mappings := detected }, true)
  else (st, false)

/-- The per-cell step of the driver-row loop of `_parse_html_grid`: empty cell
text advances the column index without writing; non-empty text writes the
`HTML`-coded cell into `raw_columns` and `raw_data`. -/
def processGridCell (driver_id : String)
    (acc : ParserState × List (String × RawCol) × Nat) (cell : HCell) :
    ParserState × List (String × RawCol) × Nat :=
  let (st, rc, column_index) := acc
  let cell_value := pyStrip cell.text
  if cell_value = "" then (st, rc, column_index + 1)
  else
    let column_key := "C" ++ toString column_index
    let rc := alistSet rc column_key
      { code := "HTML", value := cell_value, column_number := toString column_index }
    let st := { st with
      raw_data := rawDataSet st.raw_data driver_id column_key ("HTML", cell_value) }
    (st, rc, column_index + 1)

/-- The per-row step of `_parse_html_grid` over the driver rows
(`data-id` truthy, starting with `r`, not `r0`). -/
def processDriverRow (now : String) (acc : ParserState × Updates) (row : HRow) :
    ParserState × Updates :=
  let driver_id := pyDrop (row.dataId.getD "") 1
  let (st, rc, _) := row.cells.foldl (processGridCell driver_id) (acc.1, [], 1)
  (st, alistSet acc.2 driver_id
    { driver_id := driver_id, raw_columns := rc, timestamp := now })

/-- `KartingMessageParser._parse_html_grid`.  `soup` is the BeautifulSoup HTML
parse (an external library): it takes the text after the `grid||` marker and
yields the row structure, or fails; its failure is caught and yields no updates,
exactly as the `except` clauses of the source do. -/
def parse_html_grid (soup : String → Except String Html) (now : String)
    (st : ParserState) (message : String) : ParserState × Updates :=
  let lines := pySplit (pyStrip message) "\n"
  match lines.find? (pyStartsWith · "grid||") with
  | none => (st, [])
  | some gridLine =>
    let html_content := pyDrop gridLine 6
    if html_content = "" then (st, [])
    else match soup html_content with
    | .error _ => (st, [])
    | .ok doc =>
      let st :=
        match doc.find? (fun r => r.dataId = some "r0") with
        | some header => (extract_column_mappings_from_header st header).1
        | none => st
      let driver_rows := doc.filter fun r =>
        match r.dataId with
        | some s => s ≠ "" && pyStartsWith s "r" && s ≠ "r0"
        | none => false
      driver_rows.foldl (processDriverRow now) (st, [])

/-! ## `_apply_circuit_mappings` and `_remap_all_drivers` -/

/-- The `mapped_driver` record built for one update entry: `driver_id` and
`timestamp`, then per raw column the mapped field (falling back to the column
key when unmapped) and the `"<Cn>_raw"` debug entry. -/
def mapDriverRecord (mappings : List (String × String)) (u : DUpdate) : Record :=
  u.raw_columns.foldl
    (fun r (p : String × RawCol) =>
      let field_name := alistGetD mappings p.1 p.1
      let r := alistSet r field_name (MVal.s p.2.value)
      alistSet r (p.1 ++ "_raw") (MVal.raw p.2))
    [("driver_id", MVal.s u.driver_id), ("timestamp", MVal.s u.timestamp)]

/-- `KartingMessageParser._apply_circuit_mappings`. -/
def apply_circuit_mappings (mappings : List (String × String)) (raw_updates : Updates) :
    List (String × Record) :=
  raw_updates.foldl (fun acc (p : String × DUpdate) =>
    alistSet acc p.1 (mapDriverRecord mappings p.2)) []

/-- `KartingMessageParser._remap_all_drivers`: rebuild every driver record from
`raw_data` under the current mappings. -/
def remap_all_drivers (st : ParserState) : ParserState :=
  let new_driver_states := st.raw_data.foldl
    (fun acc (p : String × List (String × (String × String))) =>
      let mapped := p.2.foldl
        (fun r (q : String × (String × String)) =>
          let field_name := alistGetD st.circuit_mappings q.1 q.1
          let r := alistSet r field_name (MVal.s q.2.2)
          alistSet r (q.1 ++ "_raw") (MVal.rawPair q.2.1 q.2.2))
        [("driver_id", MVal.s p.1)]
      alistSet acc p.1 mapped)
    []
  { st with driver_states := new_driver_states }

/-! ## `parse_message` -/

/-- The result dict of `parse_message`. -/
structure ParseResult where
  success : Bool
  drivers_updated : List String
  mapped_data : List (String × Record)
  raw_updates : Updates
  message_count : Nat
  timestamp : String
  error : Option String
deriving DecidableEq, Repr

/-- The counter bump and `last_update` write at the top of `parse_message`. -/
def bumpState (now : String) (st : ParserState) : ParserState :=
  { st with message_count := st.message_count + 1, last_update := some now }

/-- The dispatch inside the `try` block of `parse_message`: a frame containing
the literal `init` marker goes to the HTML-grid parser, any other frame to the
pipe parser. -/
def parseFrameBody (soup : String → Except String Html) (now : String)
    (st : ParserState) (message : String) : ParserState × Updates :=
  if strContains message "init" then parse_html_grid soup now st message
  else parse_pipe_format now st message

/-- `KartingMessageParser.parse_message`: bump the counter, dispatch on the
`init` marker to the HTML-grid or pipe parser, and build the result dict.
Every failure point of the two branch parsers is caught inside them (the
source catches BeautifulSoup errors in `_parse_html_grid` and `ValueError` in
`_parse_pipe_format`), so the top-level handler never fires and `error` stays
absent. -/
def parse_message (soup : String → Except String Html) (now : String)
    (st : ParserState) (message : String) : ParserState × ParseResult :=
  let st1 := bumpState now st
  let body := parseFrameBody soup now st1 message
  let result : ParseResult :=
    if body.2 ≠ [] then
      { success := true
        drivers_updated := alistKeys body.2
        mapped_data := apply_circuit_mappings body.1.circuit_mappings body.2
        raw_updates := body.2
        message_count := st1.message_count
        timestamp := now
        error := none }
    else
      { success := false
        drivers_updated := []
        mapped_data := []
        raw_updates := []
        message_count := st1.message_count
        timestamp := now
        error := none }
  (body.1, result)

/-! ## Session export / import -/

/-- A raw-cell value inside the exported blob: the tuple the parser stores, or
a JSON-style list (what a tuple becomes after serialization); `import` turns
lists back into tuples with `tuple(val)`.  Only 2-element values occur. -/
inductive RCell where
  | tup (code value : String)
  | lst (elems : List String)
deriving DecidableEq, Repr

/-- Python `tuple(val) if isinstance(val, list) else val`. -/
def rcellToTuple : RCell → String × String
  | .tup code value => (code, value)
  | .lst elems => (elems.getD 0 "", elems.getD 1 "")

/-- The dict returned by `export_session_data`.  The four importable keys are
`Option`-valued because `import_session_data` guards each with `if key in
data`; an exported blob always carries all of them. -/
structure SessionData where
  driver_states : Option (List (String × Record))
  raw_data : Option (List (String × List (String × RCell)))
  circuit_mappings : Option (List (String × String))
  message_count : Option Nat
  last_update : Option String
  export_timestamp : String
deriving DecidableEq, Repr

/-- `KartingMessageParser.export_session_data`. -/
def export_session_data (now : String) (st : ParserState) : SessionData :=
  { driver_states := some st.driver_states
    raw_data := some (st.raw_data.map fun p =>
      (p.1, p.2.map fun q => (q.1, RCell.tup q.2.1 q.2.2)))
    circuit_mappings := some st.circuit_mappings
    message_count := some st.message_count
    last_update := st.last_update
    export_timestamp := now }

/-- `KartingMessageParser.import_session_data`: each present key overwrites the
corresponding parser field; raw-cell lists are converted back to tuples. -/
def import_session_data (st : ParserState) (data : SessionData) : ParserState :=
  let st := match data.driver_states with
    | some d => { st with driver_states := d }
    | none => st
  let st := match data.raw_data with
    | some rd => { st with raw_data := rd.map fun p =>
        (p.1, p.2.map fun q => (q.1, rcellToTuple q.2)) }
    | none => st
  let st := match data.circuit_mappings with
    | some m => { st with circuit_mappings := m }
    | none => st
  match data.message_count with
  | some n => { st with message_count := n }
  | none => st

/-! ## Connection manager (`websocket_manager.py`) -/

/-- A JSON value, as far as the broadcast payloads need one. -/
inductive Json where
  | str (s : String)
  | num (n : Nat)
  | obj (fields : List (String × Json))
  | arr (xs : List Json)
  | null
deriving Repr

/-- Subscriber handles (`WebSocket` objects) are opaque; index them by `Nat`. -/
abbrev WS := Nat

/-- A karting-data dict before JSON wrapping (`message_data`). -/
abbrev MsgData := List (String × Json)

/-- The mutable fields of `ConnectionManager`. -/
structure CMState where
  circuit_connections : List (String × List WS)
  connection_circuits : List (WS × String)
  last_data_cache : List (String × MsgData)

/-- The empty manager (`ConnectionManager.__init__`). -/
def initManager : CMState := { circuit_connections := [], connection_circuits := [], last_data_cache := [] }

/-- `ConnectionManager.connect`: normalize the circuit id, accept the
handshake (abort silently on failure), register the subscriber in the
registry and the reverse map, then replay the cached payload if any.  The
return value also lists the messages sent to the new subscriber; a replay
send failure is caught and only logged, so it does not change the state. -/
def connect (accept : Bool) (st : CMState) (ws : WS) (circuit_id0 : String) :
    CMState × List (WS × Json) :=
  let circuit_id := pyStrip circuit_id0
  if !accept then (st, [])
  else
    let conns := alistGetD st.circuit_connections circuit_id []
    let conns := if ws ∈ conns then conns else conns ++ [ws]
    let st := { st with
      circuit_connections := alistSet st.circuit_connections circuit_id conns
      connection_circuits := alistSet st.connection_circuits ws circuit_id }
    let sent :=
      match alistGet? st.last_data_cache circuit_id with
      | some cached => [(ws, Json.obj [("type", Json.str "cached_data"), ("data", Json.obj cached)])]
      | none => []
    (st, sent)

/-- `ConnectionManager.disconnect`: look the subscriber's circuit up in the
reverse map, normalize it, drop the subscriber from that circuit's set
(deleting the set when it empties), then drop the reverse-map entry. -/
def disconnect (st : CMState) (ws : WS) : CMState :=
  match alistGet? st.connection_circuits ws with
  | none => st
  | some circuit_id0 =>
    let circuit_id := if circuit_id0 ≠ "" then pyStrip circuit_id0 else circuit_id0
    let st :=
      if circuit_id ≠ "" ∧ (alistGet? st.circuit_connections circuit_id).isSome then
        let remaining := (alistGetD st.circuit_connections circuit_id []).filter (· ≠ ws)
        if remaining = [] then
          { st with circuit_connections := alistRemove st.circuit_connections circuit_id }
        else
          { st with circuit_connections := alistSet st.circuit_connections circuit_id remaining }
      else st
    { st with connection_circuits := alistRemove st.connection_circuits ws }

/-- The send-error classification of `_broadcast_message_to_circuit` (and of
`send_status_update` / `send_error`): the subscriber is genuinely gone iff the
lowercased error text contains one of the three keywords. -/
def classifyFatal (e : String) : Bool :=
  let error_str := pyLower e
  strContains error_str "connection closed" || strContains error_str "broken pipe" ||
    strContains error_str "connection reset"

/-- The outcome of one `send_json` call: `none` on success, `some e` when the
transport raised an exception with text `e`. -/
abbrev SendFn := WS → Option String

/-- `ConnectionManager._broadcast_message_to_circuit`: normalize the id,
return early when the circuit has no (or an empty) connection set, otherwise
cache `message_data`, wrap it, send to every connection, collect the fatally
failed ones and disconnect them.  Returns the new state and the attempted
sends. -/
def broadcast_message_to_circuit (send : SendFn) (st : CMState)
    (circuit_id0 : String) (message_data : MsgData) : CMState × List (WS × Json) :=
  let circuit_id := pyStrip circuit_id0
  match alistGet? st.circuit_connections circuit_id with
  | none => (st, [])
  | some connections =>
    if connections = [] then
      ({ st with circuit_connections := alistRemove st.circuit_connections circuit_id }, [])
    else
      let st := { st with last_data_cache := alistSet st.last_data_cache circuit_id message_data }
      let message := Json.obj
        [("type", alistGetD message_data "type" (Json.str "timing_data")),
         ("circuit_id", Json.str circuit_id),
         ("data", Json.obj message_data),
         ("timestamp", alistGetD message_data "timestamp" Json.null)]
      let disconnected := connections.filter fun ws =>
        match send ws with
        | some e => classifyFatal e
        | none => false
      let st := disconnected.foldl disconnect st
      (st, connections.map fun ws => (ws, message))

/-! ## `broadcast_karting_data`: the parse-and-broadcast pipeline -/

/-- A write request to the external metadata store (Firebase). -/
inductive FbWrite where
  | needsConfiguration (circuit_id : String)
  | detectedMappings (circuit_id : String) (mappings : List (String × String))
deriving DecidableEq, Repr

/-- The subscriber-facing cleanup of one mapped driver record: keep only the
keys that do not end in `_raw` and are neither `driver_id` nor `timestamp`. -/
def simpleDriverOf (r : Record) : Record :=
  r.filter fun kv =>
    !(pyEndsWith kv.1 "_raw") && kv.1 ≠ "driver_id" && kv.1 ≠ "timestamp"

/-- Encode a record value as JSON. -/
def mvalToJson : MVal → Json
  | .s v => .str v
  | .raw c => .obj [("code", .str c.code), ("value", .str c.value),
      ("column_number", .str c.column_number)]
  | .rawPair code value => .obj [("code", .str code), ("value", .str value)]

/-- The `karting_data` dict assembled by `broadcast_karting_data`. -/
def kartingDataMessage (circuit_id : String)
    (simple_drivers : List (String × Record)) (message_count : Nat)
    (timestamp : String) : MsgData :=
  [("type", Json.str "karting_data"),
   ("circuit_id", Json.str circuit_id),
   ("drivers", Json.obj (simple_drivers.map fun p =>
      (p.1, Json.obj (p.2.map fun kv => (kv.1, mvalToJson kv.2))))),
   ("message_count", Json.num message_count),
   ("timestamp", Json.str timestamp)]

/-- `ConnectionManager.broadcast_karting_data`, up to the hand-off to
`_broadcast_message_to_circuit`: build a fresh parser from the circuit's
stored mappings, parse the raw message, on failure write the null-mapping
sentinel when the message was a `grid||` snapshot (skipped for an empty
circuit id, as `_save_null_mappings_to_firebase` does), on success save the
auto-detected mappings (lower-cased keys) when the message was initial and at
least 3 mappings are active, and assemble the `karting_data` payload.
Returns the payload handed to `_broadcast_message_to_circuit` (when any) and
the metadata-store writes. -/
def broadcast_karting_data (soup : String → Except String Html) (now : String)
    (stored_mappings : List (String × String)) (circuit_id : String)
    (raw_message : String) : Option MsgData × List FbWrite :=
  let parser0 := initParser stored_mappings
  let pr := parse_message soup now parser0 raw_message
  let parser := pr.1
  let result := pr.2
  if !result.success then
    (none,
     if strContains raw_message "grid||" && circuit_id ≠ "" then
       [FbWrite.needsConfiguration circuit_id]
     else [])
  else
    let writes :=
      if strContains raw_message "grid||" || strContains raw_message "init" then
        if parser.circuit_mappings ≠ [] && 3 ≤ parser.circuit_mappings.length
            && circuit_id ≠ "" then
          [FbWrite.detectedMappings circuit_id
            (parser.circuit_mappings.map fun p => (pyLower p.1, p.2))]
        else []
      else []
    let simple_drivers := result.mapped_data.foldl
      (fun acc (p : String × Record) => alistSet acc p.1 (simpleDriverOf p.2)) []
    (some (kartingDataMessage circuit_id simple_drivers result.message_count result.timestamp),
     writes)

/-! ## Helper lemmas about the association-list operations -/

theorem alistGet?_set_self {κ α : Type} [DecidableEq κ] (l : List (κ × α)) (k : κ) (v : α) :
    alistGet? (alistSet l k v) k = some v := by
  induction l with
  | nil => simp [alistSet, alistGet?]
  | cons h t ih =>
    by_cases hk : h.1 = k
    · simp [alistSet, alistGet?, hk]
    · simp [alistSet, alistGet?, hk, ih]

theorem alistGet?_set_ne {κ α : Type} [DecidableEq κ] (l : List (κ × α)) (k k' : κ) (v : α)
    (h : k' ≠ k) : alistGet? (alistSet l k v) k' = alistGet? l k' := by
  induction l with
  | nil => simp [alistSet, alistGet?, Ne.symm h]
  | cons hd t ih =>
    by_cases hk : hd.1 = k
    · simp [alistSet, alistGet?, hk, Ne.symm h]
    · simp [alistSet, alistGet?, hk, ih]

theorem alistGet?_remove_self {κ α : Type} [DecidableEq κ] (l : List (κ × α)) (k : κ) :
    alistGet? (alistRemove l k) k = none := by
  induction l with
  | nil => simp [alistRemove, alistGet?]
  | cons hd t ih =>
    by_cases hk : hd.1 = k <;> simp [alistRemove, alistGet?, hk, ih]

theorem alistGet?_remove_ne {κ α : Type} [DecidableEq κ] (l : List (κ × α)) (k k' : κ)
    (h : k' ≠ k) : alistGet? (alistRemove l k) k' = alistGet? l k' := by
  induction l with
  | nil => simp [alistRemove, alistGet?]
  | cons hd t ih =>
    by_cases hk : hd.1 = k
    · simp [alistRemove, alistGet?, hk, ih, Ne.symm h]
    · simp [alistRemove, alistGet?, hk, ih]

theorem alistGet?_mem {κ α : Type} [DecidableEq κ] {l : List (κ × α)} {k : κ} {v : α}
    (h : alistGet? l k = some v) : (k, v) ∈ l := by
  induction l with
  | nil => simp [alistGet?] at h
  | cons hd t ih =>
    obtain ⟨k1, v1⟩ := hd
    by_cases hk : k1 = k
    · simp only [alistGet?, hk, if_pos] at h
      injection h with h2
      rw [← hk, ← h2]
      exact List.mem_cons_self ..
    · simp only [alistGet?, hk, if_neg, if_false] at h
      exact List.mem_cons_of_mem _ (ih h)

theorem mem_alistSet_elim {κ α : Type} [DecidableEq κ] {l : List (κ × α)} {k a : κ} {v b : α}
    (h : (a, b) ∈ alistSet l k v) : (a = k ∧ b = v) ∨ (a, b) ∈ l := by
  induction l with
  | nil =>
    simp only [alistSet, List.mem_singleton] at h
    injection h with h1 h2
    exact Or.inl ⟨h1, h2⟩
  | cons hd t ih =>
    by_cases hk : hd.1 = k
    · simp only [alistSet, hk, if_pos] at h
      rcases List.mem_cons.mp h with h | h
      · injection h with h1 h2
        exact Or.inl ⟨h1, h2⟩
      · exact Or.inr (List.mem_cons_of_mem _ h)
    · simp only [alistSet, hk, if_neg, if_false] at h
      rcases List.mem_cons.mp h with h | h
      · exact Or.inr (List.mem_cons.mpr (Or.inl h))
      · rcases ih h with h | h
        · exact Or.inl h
        · exact Or.inr (List.mem_cons_of_mem _ h)

theorem mem_keys_alistSet_elim {κ α : Type} [DecidableEq κ] {l : List (κ × α)} {k a : κ} {v : α}
    (h : a ∈ alistKeys (alistSet l k v)) : a = k ∨ a ∈ alistKeys l := by
  rcases List.mem_map.mp h with ⟨p, hp, he⟩
  obtain ⟨p1, p2⟩ := p
  rcases mem_alistSet_elim hp with h1 | h1
  · exact Or.inl (he ▸ h1.1)
  · exact Or.inr (List.mem_map.mpr ⟨(p1, p2), h1, he⟩)

/-- Fold of keyed inserts: every binding of the result comes from the seed or
from one of the folded items. -/
theorem mem_foldl_alistSet {κ α β : Type} [DecidableEq κ] (key : β → κ) (val : β → α)
    {k : κ} {v : α} :
    ∀ (xs : List β) (acc : List (κ × α)),
      (k, v) ∈ xs.foldl (fun m x => alistSet m (key x) (val x)) acc →
      (k, v) ∈ acc ∨ ∃ x ∈ xs, k = key x ∧ v = val x := by
  intro xs
  induction xs with
  | nil => intro acc h; exact Or.inl h
  | cons x t ih =>
    intro acc h
    rcases ih (alistSet acc (key x) (val x)) h with h1 | h1
    · rcases mem_alistSet_elim h1 with h2 | h2
      · exact Or.inr ⟨x, List.mem_cons_self .., h2⟩
      · exact Or.inl h2
    · rcases h1 with ⟨y, hy, hk⟩
      exact Or.inr ⟨y, List.mem_cons_of_mem _ hy, hk⟩

theorem isPrefixList_self_append (l r : List Char) : isPrefixList l (l ++ r) = true := by
  induction l with
  | nil => rfl
  | cons c t ih => simp [isPrefixList, ih]

theorem pyEndsWith_append (a b : String) : pyEndsWith (a ++ b) b = true := by
  show isPrefixList b.data.reverse (a ++ b).data.reverse = true
  rw [String.data_append, List.reverse_append]
  exact isPrefixList_self_append _ _

/-! ## Claim C9 — export followed by import restores the session components -/

theorem rcell_round (cols : List (String × (String × String))) :
    (cols.map fun q => (q.1, RCell.tup q.2.1 q.2.2)).map
      (fun q => (q.1, rcellToTuple q.2)) = cols := by
  induction cols with
  | nil => rfl
  | cons c t ih =>
    simp only [List.map_cons, ih]
    rfl

theorem raw_data_round (rd : List (String × List (String × (String × String)))) :
    ((rd.map fun p => (p.1, p.2.map fun q => (q.1, RCell.tup q.2.1 q.2.2))).map
      fun p => (p.1, p.2.map fun q => (q.1, rcellToTuple q.2))) = rd := by
  induction rd with
  | nil => rfl
  | cons p t ih =>
    simp only [List.map_cons, ih, rcell_round]

/-- C9: exporting a parser's session data and importing the blob into any
parser restores the active mapping, the raw column table and the derived
driver records of the original (`import_session_data ∘ export_session_data`
is the identity on these three components). -/
theorem C9_export_import_roundtrip (now : String) (st p : ParserState) :
    (import_session_data p (export_session_data now st)).circuit_mappings =
        st.circuit_mappings ∧
      (import_session_data p (export_session_data now st)).raw_data = st.raw_data ∧
      (import_session_data p (export_session_data now st)).driver_states =
        st.driver_states := by
  refine ⟨rfl, ?_, rfl⟩
  show ((st.raw_data.map fun p => (p.1, p.2.map fun q => (q.1, RCell.tup q.2.1 q.2.2))).map
      fun p => (p.1, p.2.map fun q => (q.1, rcellToTuple q.2))) = st.raw_data
  exact raw_data_round st.raw_data

/-! ## Claim C10 — `parse_message` is total, counts every call, catches failures -/

theorem processPipeLine_message_count (now : String) (acc : ParserState × Updates)
    (line : String) : (processPipeLine now acc line).1.message_count = acc.1.message_count := by
  unfold processPipeLine
  dsimp only
  repeat' split
  all_goals rfl

theorem foldl_processPipeLine_message_count (now : String) (lines : List String) :
    ∀ acc : ParserState × Updates,
      (lines.foldl (processPipeLine now) acc).1.message_count = acc.1.message_count := by
  induction lines with
  | nil => intro acc; rfl
  | cons l t ih =>
    intro acc
    rw [List.foldl_cons, ih, processPipeLine_message_count]

theorem parse_pipe_format_message_count (now : String) (st : ParserState) (msg : String) :
    (parse_pipe_format now st msg).1.message_count = st.message_count := by
  unfold parse_pipe_format
  exact foldl_processPipeLine_message_count now _ (st, [])

theorem processGridCell_message_count (d : String)
    (acc : ParserState × List (String × RawCol) × Nat) (c : HCell) :
    (processGridCell d acc c).1.message_count = acc.1.message_count := by
  unfold processGridCell
  dsimp only
  repeat' split
  all_goals rfl

theorem foldl_processGridCell_message_count (d : String) (cells : List HCell) :
    ∀ acc : ParserState × List (String × RawCol) × Nat,
      (cells.foldl (processGridCell d) acc).1.message_count = acc.1.message_count := by
  induction cells with
  | nil => intro acc; rfl
  | cons c t ih =>
    intro acc
    rw [List.foldl_cons, ih, processGridCell_message_count]

theorem processDriverRow_message_count (now : String) (acc : ParserState × Updates)
    (row : HRow) : (processDriverRow now acc row).1.message_count = acc.1.message_count := by
  unfold processDriverRow
  exact foldl_processGridCell_message_count _ _ _

theorem foldl_processDriverRow_message_count (now : String) (rows : List HRow) :
    ∀ acc : ParserState × Updates,
      (rows.foldl (processDriverRow now) acc).1.message_count = acc.1.message_count := by
  induction rows with
  | nil => intro acc; rfl
  | cons r t ih =>
    intro acc
    rw [List.foldl_cons, ih, processDriverRow_message_count]

theorem extract_message_count (st : ParserState) (header : HRow) :
    (extract_column_mappings_from_header st header).1.message_count = st.message_count := by
  unfold extract_column_mappings_from_header
  dsimp only
  split <;> rfl

theorem parse_html_grid_message_count (soup : String → Except String Html) (now : String)
    (st : ParserState) (msg : String) :
    (parse_html_grid soup now st msg).1.message_count = st.message_count := by
  unfold parse_html_grid
  dsimp only
  split
  · rfl
  · split
    · rfl
    · split
      · rfl
      · rw [foldl_processDriverRow_message_count]
        split
        · exact extract_message_count _ _
        · rfl

theorem parseFrameBody_message_count (soup : String → Except String Html) (now : String)
    (st : ParserState) (msg : String) :
    (parseFrameBody soup now st msg).1.message_count = st.message_count := by
  unfold parseFrameBody
  split
  · exact parse_html_grid_message_count ..
  · exact parse_pipe_format_message_count ..

/-- C10: `parse_message` is a total function of its input (it returns a plain
result for every message, including empty and unparsable frames — every
failure point of the branch parsers is caught inside them, so no exception
escapes and the top-level handler leaves `error` unset); the per-parser
message counter is incremented by exactly one on every call; the result is
successful exactly when some driver update was extracted. -/
theorem C10_parse_message_total (soup : String → Except String Html) (now : String)
    (st : ParserState) (msg : String) :
    (parse_message soup now st msg).1.message_count = st.message_count + 1 ∧
      (parse_message soup now st msg).2.message_count = st.message_count + 1 ∧
      ((parse_message soup now st msg).2.success = true ↔
        (parse_message soup now st msg).2.raw_updates ≠ []) ∧
      (parse_message soup now st msg).2.error = none := by
  unfold parse_message
  refine ⟨?_, ?_, ?_, ?_⟩
  · exact parseFrameBody_message_count ..
  · dsimp only
    split <;> rfl
  · dsimp only
    split <;> rename_i hup
    · simpa using hup
    · simp [hup]
  · dsimp only
    split <;> rfl

/-! ## Claim C4 — frame classification by the literal `init` marker -/

/-- C4: `parse_message` hands a frame to the HTML-grid parser (which parses
the line starting with `grid||`) exactly when the frame contains the literal
substring `init`, and to the pipe-delimited delta parser otherwise; the
dispatch is a single two-way branch, so no frame is parsed both ways. -/
theorem C4_frame_classification (soup : String → Except String Html) (now : String)
    (st : ParserState) (msg : String) :
    (parse_message soup now st msg).2.raw_updates =
      (if strContains msg "init" = true then
        (parse_html_grid soup now (bumpState now st) msg).2
      else (parse_pipe_format now (bumpState now st) msg).2) ∧
      (parse_message soup now st msg).1 =
        (if strContains msg "init" = true then
          (parse_html_grid soup now (bumpState now st) msg).1
        else (parse_pipe_format now (bumpState now st) msg).1) := by
  constructor
  · have h1 : (parse_message soup now st msg).2.raw_updates =
        (parseFrameBody soup now (bumpState now st) msg).2 := by
      unfold parse_message
      dsimp only
      split
      · rfl
      · rename_i hup
        exact (not_ne_iff.mp hup).symm
    rw [h1]
    unfold parseFrameBody
    split <;> rfl
  · have h1 : (parse_message soup now st msg).1 =
        (parseFrameBody soup now (bumpState now st) msg).1 := rfl
    rw [h1]
    unfold parseFrameBody
    split <;> rfl

/-! ## Claim C5 — which delta records are applied -/

/-- The effect of one well-formed delta record `ident|code|value` on the
parser state and the updates dict. -/
def applyPipeRecord (now : String) (acc : ParserState × Updates)
    (ident code value : String) : ParserState × Updates :=
  let pilot_raw := (pySplit ident "c").headD ""
  let col := (pySplit ident "c").getD 1 ""
  let driver_id := pyDrop pilot_raw 1
  let column_key := "C" ++ col
  let st := { acc.1 with
    raw_data := rawDataSet acc.1.raw_data driver_id column_key (code, value) }
  let entry := alistGetD acc.2 driver_id
    { driver_id := driver_id, raw_columns := [], timestamp := now }
  let entry := { entry with
    raw_columns := alistSet entry.raw_columns column_key
      { code := code, value := value, column_number := col } }
  (st, alistSet acc.2 driver_id entry)

/-- The effective well-formedness test of `_parse_pipe_format`: exactly three
pipe-separated fields, an ident starting with `r` and containing exactly one
`c` (two or more raise the caught `ValueError`).  No bound on the column
index appears anywhere. -/
def pipeRecordWellFormed (line0 : String) : Bool :=
  let parts := pySplit (pyStrip line0) "|"
  parts.length == 3 && pyStartsWith (parts.headD "") "r" &&
    (pySplit (parts.headD "") "c").length == 2

/-- C5 (amended): a delta line is applied as
`(driver_id, C<col>) ← (code, value)` iff it has exactly three pipe-separated
fields and its ident starts with `r` and contains exactly one `c`; the column
text is used verbatim with no numeric-range check, so `c0` and `c15` records
are applied rather than skipped. -/
theorem C5_delta_record_applied_iff (now : String) (acc : ParserState × Updates)
    (line : String) :
    processPipeLine now acc line =
      if pipeRecordWellFormed line = true then
        applyPipeRecord now acc ((pySplit (pyStrip line) "|").headD "")
          ((pySplit (pyStrip line) "|").getD 1 "") ((pySplit (pyStrip line) "|").getD 2 "")
      else acc := by
  unfold processPipeLine pipeRecordWellFormed applyPipeRecord
  dsimp only
  by_cases he : pyStrip line = ""
  · rw [he]
    have hsplit : pySplit "" "|" = [""] := rfl
    simp [hsplit]
  · rw [if_neg he]
    rcases hsplit : pySplit (pyStrip line) "|" with _ | ⟨ident, _ | ⟨code, _ | ⟨value, _ | ⟨d, rest⟩⟩⟩⟩
    · simp [hsplit]
    · simp [hsplit]
    · simp [hsplit]
    · by_cases hr : pyStartsWith ident "r"
      · rcases hc : pySplit ident "c" with _ | ⟨p, _ | ⟨col, r2⟩⟩
        · simp [hc, hr, strContains]
        · simp [hc, hr, strContains]
        · rcases r2 with _ | ⟨q, r3⟩
          · simp [hc, hr, strContains]
          · simp [hc, hr, strContains]
      · simp [hr]
    · simp

/-- C5 counterexample: the claim says delta records with column index 0 or 15
are silently skipped; the code applies them — `r5c0|ab|xy` and `r7c15|b|y`
write raw entries `C0` and `C15` and produce driver updates. -/
theorem C5_counterexample :
    alistGet? (parse_pipe_format "t" (initParser []) "r5c0|ab|xy\nr7c15|b|y").1.raw_data "5"
        = some [("C0", ("ab", "xy"))] ∧
      alistGet? (parse_pipe_format "t" (initParser []) "r5c0|ab|xy\nr7c15|b|y").1.raw_data "7"
        = some [("C15", ("b", "y"))] ∧
      alistGet? (parse_pipe_format "t" (initParser []) "r5c0|ab|xy\nr7c15|b|y").2 "5"
        = some { driver_id := "5",
                 raw_columns := [("C0", { code := "ab", value := "xy", column_number := "0" })],
                 timestamp := "t" } :=
  ⟨by decide, by decide, by decide⟩

/-! ## Claim C6 — when mapping inference succeeds -/

/-- Header with two non-empty terms and one empty-text cell. -/
def hdrC6 : HRow :=
  { dataId := some "r0",
    cells := [{ dataId := some "c1", text := "Foo" },
              { dataId := some "c2", text := "Bar" },
              { dataId := some "c3", text := "" }] }

/-- C6 counterexample: the claim says inference fails whenever exactly 2
header terms are non-empty; a header with two non-empty terms and a third
empty-text cell succeeds, because the empty text is itself a lexicon key
(translated to `Statut`) and counts as a detected column — and the active
mappings are replaced. -/
theorem C6_counterexample :
    ((hdrC6.cells.filter fun c => pyStrip c.text ≠ "").length = 2) ∧
      (extract_column_mappings_from_header (initParser [("C9", "Old")]) hdrC6).2 = true ∧
      (extract_column_mappings_from_header (initParser [("C9", "Old")]) hdrC6).1.circuit_mappings
        = [("C1", "Foo"), ("C2", "Bar"), ("C3", "Statut")] :=
  ⟨by decide, by decide, by decide⟩

/-- C6 (amended): inference is deemed successful iff at least 3 distinct
column ids among the header cells (those with a truthy `data-id` starting
with `c`) produced a mapping entry — counting empty-text cells, whose empty
text the lexicon translates to `Statut` — each entry being the lexicon
translation of the stripped cell text or that text verbatim; on failure the
parser's active mappings are not replaced, on success they become exactly the
detected mappings. -/
theorem C6_inference_success_iff (st : ParserState) (header : HRow) :
    ((extract_column_mappings_from_header st header).2 = true ↔
      3 ≤ (detectedMappingsOf header).length) ∧
      ((extract_column_mappings_from_header st header).2 = false →
        (extract_column_mappings_from_header st header).1.circuit_mappings =
          st.circuit_mappings) ∧
      ((extract_column_mappings_from_header st header).2 = true →
        (extract_column_mappings_from_header st header).1.circuit_mappings =
          detectedMappingsOf header) ∧
      (∀ k v, (k, v) ∈ detectedMappingsOf header →
        ∃ c ∈ headerCellsOf header, k = headerCellKey c ∧
          (alistGet? COLUMN_TRANSLATIONS (pyStrip c.text) = some v ∨ v = pyStrip c.text)) := by
  refine ⟨?_, ?_, ?_, ?_⟩
  · unfold extract_column_mappings_from_header
    dsimp only
    split
    · rename_i h
      simpa using h
    · rename_i h
      simpa using h
  · unfold extract_column_mappings_from_header
    dsimp only
    split
    · intro h
      cases h
    · intro _
      rfl
  · unfold extract_column_mappings_from_header
    dsimp only
    split
    · intro _
      rfl
    · intro h
      cases h
  · intro k v hkv
    unfold detectedMappingsOf at hkv
    rcases mem_foldl_alistSet headerCellKey headerCellField (headerCellsOf header) [] hkv with
      h | ⟨c, hc, hk, hv⟩
    · cases h
    · refine ⟨c, hc, hk, ?_⟩
      unfold headerCellField at hv
      dsimp only at hv
      rcases hlk : alistGet? COLUMN_TRANSLATIONS (pyStrip c.text) with _ | n
      · rw [hlk] at hv
        exact Or.inr hv
      · rw [hlk] at hv
        dsimp only at hv
        by_cases hn : n = ""
        · rw [if_pos hn] at hv
          exact Or.inr hv
        · rw [if_neg hn] at hv
          exact Or.inl (by rw [hv])

/-- A complete French header (the spec's cold-snapshot scenario). -/
def hdrFr : HRow :=
  { dataId := some "r0",
    cells := [{ dataId := some "c1", text := "Clt" },
              { dataId := some "c2", text := "Pilote" },
              { dataId := some "c3", text := "Kart" },
              { dataId := some "c4", text := "Dernier T." }] }

/-- Witness for C6: a 4-column French header is inferred successfully and the
active mappings become its translations. -/
theorem C6_witness :
    (extract_column_mappings_from_header (initParser []) hdrFr).2 = true ∧
      (extract_column_mappings_from_header (initParser []) hdrFr).1.circuit_mappings =
        [("C1", "Classement"), ("C2", "Pilote"), ("C3", "Kart"), ("C4", "Dernier T.")] := by
  have h := C6_inference_success_iff (initParser []) hdrFr
  have hs : (extract_column_mappings_from_header (initParser []) hdrFr).2 = true :=
    h.1.mpr (by decide)
  exact ⟨hs, (h.2.2.1 hs).trans (by decide)⟩

/-! ## Claim C1 — field keys of projected driver records -/

theorem mem_keys_foldl_mapstep (mappings : List (String × String))
    (cols : List (String × RawCol)) :
    ∀ (r0 : Record) (k : String),
      k ∈ alistKeys (cols.foldl
        (fun r (p : String × RawCol) =>
          alistSet (alistSet r (alistGetD mappings p.1 p.1) (MVal.s p.2.value))
            (p.1 ++ "_raw") (MVal.raw p.2)) r0) →
      k ∈ alistKeys r0 ∨
        ∃ p ∈ cols, k = alistGetD mappings p.1 p.1 ∨ k = p.1 ++ "_raw" := by
  induction cols with
  | nil =>
    intro r0 k h
    exact Or.inl h
  | cons p t ih =>
    intro r0 k h
    rw [List.foldl_cons] at h
    rcases ih _ k h with h1 | ⟨q, hq, hk⟩
    · rcases mem_keys_alistSet_elim h1 with h2 | h2
      · exact Or.inr ⟨p, List.mem_cons_self .., Or.inr h2⟩
      · rcases mem_keys_alistSet_elim h2 with h3 | h3
        · exact Or.inr ⟨p, List.mem_cons_self .., Or.inl h3⟩
        · exact Or.inl h3
    · exact Or.inr ⟨q, List.mem_cons_of_mem _ hq, hk⟩

theorem mem_keys_mapDriverRecord (mappings : List (String × String)) (u : DUpdate)
    {k : String} (h : k ∈ alistKeys (mapDriverRecord mappings u)) :
    k = "driver_id" ∨ k = "timestamp" ∨
      ∃ p ∈ u.raw_columns, k = alistGetD mappings p.1 p.1 ∨ k = p.1 ++ "_raw" := by
  rcases mem_keys_foldl_mapstep mappings u.raw_columns
      [("driver_id", MVal.s u.driver_id), ("timestamp", MVal.s u.timestamp)] k h with
    h1 | h1
  · simp only [alistKeys, List.map_cons, List.map_nil, List.mem_cons,
      List.mem_singleton] at h1
    rcases h1 with h1 | h1 | h1
    · exact Or.inl h1
    · exact Or.inr (Or.inl h1)
    · cases h1
  · exact Or.inr (Or.inr h1)

/-- C1 (amended): every field key of a projected driver record is
`driver_id`, `timestamp`, or arises from one of the driver's raw columns as
either the mapping-with-fallback image `mappings.get(Cn, Cn)` — so an
unmapped raw entry IS exposed, under its own column key — or the raw-debug
key `Cn_raw`; and after the subscriber-facing cleanup performed by
`broadcast_karting_data`, every remaining key is a mapping-with-fallback
image and no `_raw` debug key, `driver_id` or `timestamp` survives, so raw
debug tuples are never part of what subscribers receive. -/
theorem C1_projection_keys (mappings : List (String × String)) (updates : Updates)
    (d : String) (r : Record)
    (h : alistGet? (apply_circuit_mappings mappings updates) d = some r) :
    (∀ k, k ∈ alistKeys r →
      k = "driver_id" ∨ k = "timestamp" ∨
        ∃ u, (d, u) ∈ updates ∧
          ∃ p ∈ u.raw_columns, k = alistGetD mappings p.1 p.1 ∨ k = p.1 ++ "_raw") ∧
      (∀ k, k ∈ alistKeys (simpleDriverOf r) →
        (pyEndsWith k "_raw" = false ∧ k ≠ "driver_id" ∧ k ≠ "timestamp") ∧
          ∃ u, (d, u) ∈ updates ∧
            ∃ p ∈ u.raw_columns, k = alistGetD mappings p.1 p.1) := by
  have hmem : (d, r) ∈ apply_circuit_mappings mappings updates := alistGet?_mem h
  have horig := mem_foldl_alistSet Prod.fst
    (fun p : String × DUpdate => mapDriverRecord mappings p.2) updates [] hmem
  rcases horig with h0 | ⟨x, hx, hd, hr⟩
  · cases h0
  have hxu : (d, x.2) ∈ updates := by
    rw [hd]
    exact hx
  have part1 : ∀ k, k ∈ alistKeys r →
      k = "driver_id" ∨ k = "timestamp" ∨
        ∃ u, (d, u) ∈ updates ∧
          ∃ p ∈ u.raw_columns, k = alistGetD mappings p.1 p.1 ∨ k = p.1 ++ "_raw" := by
    intro k hk
    rw [hr] at hk
    rcases mem_keys_mapDriverRecord mappings x.2 hk with h1 | h1 | ⟨p, hp, h1⟩
    · exact Or.inl h1
    · exact Or.inr (Or.inl h1)
    · exact Or.inr (Or.inr ⟨x.2, hxu, p, hp, h1⟩)
  refine ⟨part1, ?_⟩
  intro k hk
  rcases List.mem_map.mp hk with ⟨kv, hkv, hke⟩
  have hf := List.mem_filter.mp hkv
  have hpred := hf.2
  simp only [Bool.and_eq_true, Bool.not_eq_true', decide_eq_true_eq] at hpred
  have hkr : k ∈ alistKeys r := List.mem_map.mpr ⟨kv, hf.1, hke⟩
  have hraw : pyEndsWith k "_raw" = false := hke ▸ hpred.1.1
  have hdid : k ≠ "driver_id" := hke ▸ hpred.1.2
  have hts : k ≠ "timestamp" := hke ▸ hpred.2
  refine ⟨⟨hraw, hdid, hts⟩, ?_⟩
  rcases part1 k hkr with h1 | h1 | ⟨u, hu, p, hp, h1 | h1⟩
  · exact absurd h1 hdid
  · exact absurd h1 hts
  · exact ⟨u, hu, p, hp, h1⟩
  · rw [h1, pyEndsWith_append] at hraw
    cases hraw

/-- The updates of one driver with a single raw column `C1`. -/
def U1 : Updates :=
  [("7", { driver_id := "7",
           raw_columns := [("C1", { code := "X", value := "v", column_number := "1" })],
           timestamp := "t" })]

/-- C1 counterexample: under an empty active mapping (codomain `∅`) the
projection of driver `7` exposes the key `C1` — which is neither `driver_id`
nor in the mapping's codomain — even in the subscriber-facing cleanup, so an
entry whose column has no mapping DOES contribute a key to the projected
record.  (The raw-debug key `C1_raw` is present in the record but is indeed
stripped from what subscribers receive.) -/
theorem C1_counterexample :
    "C1" ∈ alistKeys (simpleDriverOf (alistGetD (apply_circuit_mappings [] U1) "7" [])) ∧
      "C1" ≠ "driver_id" ∧
      "C1" ∉ (([] : List (String × String)).map Prod.snd) ∧
      "C1_raw" ∈ alistKeys (alistGetD (apply_circuit_mappings [] U1) "7" []) ∧
      "C1_raw" ∉ alistKeys (simpleDriverOf (alistGetD (apply_circuit_mappings [] U1) "7" [])) :=
  ⟨by decide, by decide, by decide, by decide, by decide⟩

/-- Witness for C1: applying the theorem to driver `7` of `U1` under the
empty mapping, the subscriber-visible key `C1` is the fallback image of the
raw column `C1`. -/
theorem C1_witness :
    (pyEndsWith "C1" "_raw" = false ∧ "C1" ≠ "driver_id" ∧ "C1" ≠ "timestamp") ∧
      ∃ u, ("7", u) ∈ U1 ∧
        ∃ p ∈ u.raw_columns, "C1" = alistGetD ([] : List (String × String)) p.1 p.1 := by
  have h := C1_projection_keys [] U1 "7"
    (alistGetD (apply_circuit_mappings [] U1) "7" []) (by decide)
  exact h.2 "C1" (by decide)

/-! ## Claim C2 — shape of the `karting_data` payload -/

/-- A BeautifulSoup stand-in that always fails (never consulted for
pipe-format frames). -/
def soupErr : String → Except String Html := fun _ => .error "parse error"

/-- C2 counterexample: a successfully parsed delta broadcast carries a
`karting_data` payload with no `column_order` component at all, contradicting
the claim that `column_order` is present in every broadcast payload. -/
theorem C2_counterexample :
    "column_order" ∉
        (((broadcast_karting_data soupErr "t" [] "c" "r1c2|a|b").1.getD []).map Prod.fst) ∧
      (broadcast_karting_data soupErr "t" [] "c" "r1c2|a|b").1.isSome = true :=
  ⟨by decide, by decide⟩

/-- C2 (amended): every `karting_data` payload handed to the broadcast
contains exactly the components `type`, `circuit_id`, `drivers`,
`message_count` and `timestamp` — in particular never a `column_order`
component. -/
theorem C2_payload_keys (soup : String → Except String Html) (now : String)
    (m0 : List (String × String)) (cid msg : String) (d : MsgData)
    (h : (broadcast_karting_data soup now m0 cid msg).1 = some d) :
    d.map Prod.fst = ["type", "circuit_id", "drivers", "message_count", "timestamp"] := by
  unfold broadcast_karting_data at h
  dsimp only at h
  split at h
  · exact Option.noConfusion h
  · injection h with h1
    rw [← h1]
    rfl

/-- Witness for C2: the payload keys of a concrete broadcast. -/
theorem C2_witness :
    ((broadcast_karting_data soupErr "t" [] "c" "r1c2|a|b").1.getD []).map Prod.fst
      = ["type", "circuit_id", "drivers", "message_count", "timestamp"] :=
  C2_payload_keys soupErr "t" [] "c" "r1c2|a|b"
    ((broadcast_karting_data soupErr "t" [] "c" "r1c2|a|b").1.getD []) (by rfl)

/-! ## Claim C3 — inference failure and the needs-configuration write -/

/-- Header with only two cells (`Foo`, `Bar`): inference yields 2 < 3 columns. -/
def hdrC3 : HRow :=
  { dataId := some "r0",
    cells := [{ dataId := some "c1", text := "Foo" },
              { dataId := some "c2", text := "Bar" }] }

/-- A snapshot document with the failing header and one driver row. -/
def htmlC3 : Html :=
  [hdrC3, { dataId := some "r141", cells := [{ dataId := none, text := "1" }] }]

/-- BeautifulSoup stand-in for the C3 snapshot. -/
def soupC3 : String → Except String Html :=
  fun s => if s = "X" then .ok htmlC3 else .error "parse error"

/-- C3 counterexample: a snapshot frame whose header inference yields only
2 < 3 columns but which carries a driver row parses successfully, so
`broadcast_karting_data` issues NO metadata-store write at all — in
particular no `write_needs_configuration` — while the driver data is
broadcast; the claim's required needs-configuration write does not happen. -/
theorem C3_counterexample :
    (detectedMappingsOf hdrC3).length = 2 ∧
      (extract_column_mappings_from_header (initParser []) hdrC3).2 = false ∧
      (broadcast_karting_data soupC3 "t" [] "cid1" "init\ngrid||X").2 = [] ∧
      (broadcast_karting_data soupC3 "t" [] "cid1" "init\ngrid||X").1.isSome = true :=
  ⟨by decide, by decide, by decide, by decide⟩

/-- C3 (amended): the null-mapping sentinel `write_needs_configuration` is
requested exactly when the frame contains the literal `grid||`, the circuit
id is non-empty, and parsing produced no driver updates (`success = false`);
a snapshot whose header inference fails but which yields driver rows is
broadcast normally with no metadata write, and whenever parsing succeeds the
driver data is handed to the broadcast. -/
theorem C3_needs_configuration_iff (soup : String → Except String Html) (now : String)
    (m0 : List (String × String)) (cid msg : String) :
    (FbWrite.needsConfiguration cid ∈ (broadcast_karting_data soup now m0 cid msg).2 ↔
      strContains msg "grid||" = true ∧ cid ≠ "" ∧
        (parse_message soup now (initParser m0) msg).2.success = false) ∧
      ((parse_message soup now (initParser m0) msg).2.success = true →
        (broadcast_karting_data soup now m0 cid msg).1.isSome = true) := by
  unfold broadcast_karting_data
  dsimp only
  constructor
  · split
    · rename_i hs
      rw [Bool.not_eq_true'] at hs
      split
      · rename_i hcond
        simp only [Bool.and_eq_true, decide_eq_true_eq] at hcond
        simp [hs, hcond.1, hcond.2]
      · rename_i hcond
        simp only [Bool.and_eq_true, decide_eq_true_eq, not_and] at hcond
        simp only [List.not_mem_nil, false_iff, not_and]
        intro hg hc
        exact absurd hc (hcond hg)
    · rename_i hs0
      have hs : (parse_message soup now (initParser m0) msg).2.success = true := by
        cases hb : (parse_message soup now (initParser m0) msg).2.success
        · exact absurd (by rw [hb]; rfl) hs0
        · rfl
      have hnone : ¬ (strContains msg "grid||" = true ∧ cid ≠ "" ∧
          (parse_message soup now (initParser m0) msg).2.success = false) := by
        rintro ⟨-, -, hfalse⟩
        rw [hs] at hfalse
        cases hfalse
      clear hs
      split
      · split
        · simp [hnone]
        · simp [hnone]
      · simp [hnone]
  · split
    · rename_i hs
      rw [Bool.not_eq_true'] at hs
      intro hsucc
      rw [hs] at hsucc
      cases hsucc
    · intro _
      rfl

/-- Witness for C3: a `grid||` frame with no driver updates on a non-empty
circuit id does produce the needs-configuration write. -/
theorem C3_witness :
    FbWrite.needsConfiguration "c" ∈ (broadcast_karting_data soupErr "t" [] "c" "grid||Z").2 :=
  (C3_needs_configuration_iff soupErr "t" [] "c" "grid||Z").1.mpr
    ⟨by decide, by decide, by decide⟩

/-! ## Connection-manager lemmas for claims C7 and C8 -/

/-- The subscribers registered for a circuit ( `circuit_connections.get(cid, set())` ). -/
def connsOf (st : CMState) (cid : String) : List WS :=
  alistGetD st.circuit_connections cid []

/-- Whether one send outcome is classified as a gone subscriber. -/
def sendFatal (send : SendFn) (ws : WS) : Bool :=
  match send ws with
  | some e => classifyFatal e
  | none => false

theorem last_data_cache_disconnect (st : CMState) (w : WS) :
    (disconnect st w).last_data_cache = st.last_data_cache := by
  unfold disconnect
  dsimp only
  repeat' split
  all_goals rfl

theorem last_data_cache_foldl_disconnect (L : List WS) :
    ∀ st : CMState, (L.foldl disconnect st).last_data_cache = st.last_data_cache := by
  induction L with
  | nil => intro st; rfl
  | cons w t ih =>
    intro st
    rw [List.foldl_cons, ih, last_data_cache_disconnect]

theorem connection_circuits_disconnect_other (st : CMState) (w : WS) {w' : WS}
    (hne : w' ≠ w) :
    alistGet? (disconnect st w).connection_circuits w' =
      alistGet? st.connection_circuits w' := by
  unfold disconnect
  dsimp only
  repeat' split
  all_goals first
    | rfl
    | exact alistGet?_remove_ne _ _ _ hne

theorem connsOf_disconnect_subset (st : CMState) (w : WS) (cid : String) {ws : WS}
    (h : ws ∈ connsOf (disconnect st w) cid) : ws ∈ connsOf st cid := by
  unfold disconnect at h
  split at h
  · exact h
  · rename_i c0 heq
    dsimp only at h
    generalize hq : (if c0 ≠ "" then pyStrip c0 else c0) = q at h
    split at h
    · rename_i hcond
      split at h
      · unfold connsOf alistGetD at h ⊢
        dsimp only at h
        by_cases hc : cid = q
        · rw [hc, alistGet?_remove_self] at h
          simp only [Option.getD] at h
          cases h
        · rw [alistGet?_remove_ne _ _ _ hc] at h
          exact h
      · unfold connsOf alistGetD at h ⊢
        dsimp only at h
        by_cases hc : cid = q
        · rw [hc, alistGet?_set_self] at h
          simp only [Option.getD] at h
          rw [hc]
          exact (List.mem_filter.mp h).1
        · rw [alistGet?_set_ne _ _ _ _ hc] at h
          exact h
    · exact h

theorem connsOf_disconnect_other (st : CMState) (w : WS) (cid : String) {ws : WS}
    (hne : ws ≠ w) (h : ws ∈ connsOf st cid) : ws ∈ connsOf (disconnect st w) cid := by
  unfold disconnect
  split
  · exact h
  · rename_i c0 heq
    dsimp only
    generalize hq : (if c0 ≠ "" then pyStrip c0 else c0) = q
    split
    · rename_i hcond
      split
      · rename_i hrem
        by_cases hc : cid = q
        · exfalso
          have hmem : ws ∈ (alistGetD st.circuit_connections q []).filter (· ≠ w) := by
            apply List.mem_filter.mpr
            refine ⟨?_, by simpa using hne⟩
            rw [← hc]
            exact h
          rw [hrem] at hmem
          cases hmem
        · unfold connsOf alistGetD
          dsimp only
          rw [alistGet?_remove_ne _ _ _ hc]
          exact h
      · unfold connsOf alistGetD
        dsimp only
        by_cases hc : cid = q
        · rw [hc, alistGet?_set_self]
          simp only [Option.getD]
          apply List.mem_filter.mpr
          refine ⟨?_, by simpa using hne⟩
          rw [← hc]
          exact h
        · rw [alistGet?_set_ne _ _ _ _ hc]
          exact h
    · exact h

theorem connsOf_disconnect_self (st : CMState) (w : WS) (cid : String)
    (hrev : alistGet? st.connection_circuits w = some cid) (hcid : cid ≠ "")
    (htrim : pyStrip cid = cid) : w ∉ connsOf (disconnect st w) cid := by
  intro h
  unfold disconnect at h
  rw [hrev] at h
  dsimp only at h
  rw [if_pos hcid, htrim] at h
  split at h
  · rename_i hcond
    split at h
    · unfold connsOf alistGetD at h
      dsimp only at h
      rw [alistGet?_remove_self] at h
      simp only [Option.getD] at h
      cases h
    · unfold connsOf alistGetD at h
      dsimp only at h
      rw [alistGet?_set_self] at h
      simp only [Option.getD] at h
      have hker := (List.mem_filter.mp h).2
      simp at hker
  · rename_i hcond
    unfold connsOf alistGetD at h
    dsimp only at h
    rcases hget : alistGet? st.circuit_connections cid with _ | l
    · rw [hget] at h
      simp only [Option.getD] at h
      cases h
    · exact hcond ⟨hcid, by rw [hget]; rfl⟩

theorem connsOf_foldl_disconnect_subset (L : List WS) :
    ∀ (st : CMState) (cid : String) (ws : WS),
      ws ∈ connsOf (L.foldl disconnect st) cid → ws ∈ connsOf st cid := by
  induction L with
  | nil => intro st cid ws h; exact h
  | cons w t ih =>
    intro st cid ws h
    rw [List.foldl_cons] at h
    exact connsOf_disconnect_subset _ _ _ (ih _ _ _ h)

theorem connsOf_foldl_disconnect_keeps (L : List WS) :
    ∀ (st : CMState) (cid : String) (ws : WS), ws ∉ L → ws ∈ connsOf st cid →
      ws ∈ connsOf (L.foldl disconnect st) cid := by
  induction L with
  | nil => intro st cid ws _ h; exact h
  | cons w t ih =>
    intro st cid ws hnl h
    rw [List.foldl_cons]
    refine ih _ _ _ (fun hmem => hnl (List.mem_cons_of_mem _ hmem)) ?_
    exact connsOf_disconnect_other _ _ _ (fun he => hnl (he ▸ List.mem_cons_self ..)) h

theorem connsOf_foldl_disconnect_kills (L : List WS) :
    ∀ (st : CMState) (cid : String) (ws : WS), L.Nodup → ws ∈ L →
      alistGet? st.connection_circuits ws = some cid → cid ≠ "" → pyStrip cid = cid →
      ws ∉ connsOf (L.foldl disconnect st) cid := by
  induction L with
  | nil => intro st cid ws _ hmem; cases hmem
  | cons w t ih =>
    intro st cid ws hnd hmem hrev hcid htrim h
    rw [List.foldl_cons] at h
    rcases List.mem_cons.mp hmem with he | hmem'
    · subst he
      exact connsOf_disconnect_self st ws cid hrev hcid htrim
        (connsOf_foldl_disconnect_subset t _ _ _ h)
    · have hwne : ws ≠ w := by
        intro he
        subst he
        exact (List.nodup_cons.mp hnd).1 hmem'
      refine ih _ _ _ (List.nodup_cons.mp hnd).2 hmem' ?_ hcid htrim h
      rw [connection_circuits_disconnect_other st w hwne]
      exact hrev

/-! ## Claim C8 — detachment exactly on the three fatal error classes -/

/-- C8: during a broadcast a registered subscriber ends up removed from the
circuit's registry iff its send raised an error whose lowercased text contains
one of the substrings `connection closed`, `broken pipe` or
`connection reset` (see `classifyFatal`); any other send error — and any
successful send — leaves it registered. -/
theorem C8_detach_iff_fatal_error (send : SendFn) (st : CMState) (cid : String)
    (conns : List WS) (ws : WS) (payload : MsgData)
    (htrim : pyStrip cid = cid) (hcid : cid ≠ "")
    (hget : alistGet? st.circuit_connections cid = some conns)
    (hne : conns ≠ []) (hnd : conns.Nodup) (hws : ws ∈ conns)
    (hrev : alistGet? st.connection_circuits ws = some cid) :
    ws ∈ connsOf (broadcast_message_to_circuit send st cid payload).1 cid ↔
      sendFatal send ws = false := by
  unfold broadcast_message_to_circuit
  dsimp only
  rw [htrim, hget]
  dsimp only
  rw [if_neg hne]
  dsimp only
  constructor
  · intro hmem
    by_contra hf
    have hft : sendFatal send ws = true := by
      cases hb : sendFatal send ws
      · exact absurd hb hf
      · rfl
    have hdis : ws ∈ conns.filter fun w =>
        match send w with
        | some e => classifyFatal e
        | none => false :=
      List.mem_filter.mpr ⟨hws, hft⟩
    refine absurd hmem (connsOf_foldl_disconnect_kills _
      { st with last_data_cache := alistSet st.last_data_cache cid payload } cid ws
      (List.Nodup.filter _ hnd) hdis ?_ hcid htrim)
    exact hrev
  · intro hf
    have hnotin : ws ∉ conns.filter fun w =>
        match send w with
        | some e => classifyFatal e
        | none => false := by
      intro hmem
      have hft : sendFatal send ws = true := (List.mem_filter.mp hmem).2
      rw [hf] at hft
      cases hft
    refine connsOf_foldl_disconnect_keeps _ _ _ _ hnotin ?_
    show ws ∈ connsOf _ cid
    unfold connsOf alistGetD
    dsimp only
    rw [hget]
    simp only [Option.getD]
    exact hws

/-- Manager with subscribers `1` and `2` attached to circuit `c`. -/
def cmC8 : CMState := (connect true (connect true initManager 1 "c").1 2 "c").1

/-- A send function whose only failure is a connection-closed error on
subscriber `1`. -/
def sendC8 : SendFn := fun w => if w = 1 then some "Connection Closed by peer" else none

/-- Witness for C8: subscriber `2`, whose send succeeded, stays registered
after a broadcast in which subscriber `1` failed fatally. -/
theorem C8_witness :
    2 ∈ connsOf (broadcast_message_to_circuit sendC8 cmC8 "c" [("k", Json.null)]).1 "c" :=
  (C8_detach_iff_fatal_error sendC8 cmC8 "c" [1, 2] 2 [("k", Json.null)]
    (by decide) (by decide) (by rfl) (by decide) (by decide) (by decide)
    (by rfl)).mpr (by decide)

/-! ## Claim C7 — caching broadcasts and replaying them to late joiners -/

/-- C7 counterexample: a broadcast on a circuit with no registered subscriber
returns before caching — the latest-broadcast cache stays empty and a
subscriber attaching afterwards receives no `cached_data` replay,
contradicting the claim that every broadcast is cached regardless of how many
subscribers are attached. -/
theorem C7_counterexample :
    (broadcast_message_to_circuit (fun _ => none) initManager "c"
        [("type", Json.str "karting_data")]).1.last_data_cache.length = 0 ∧
      (connect true (broadcast_message_to_circuit (fun _ => none) initManager "c"
          [("type", Json.str "karting_data")]).1 9 "c").2.length = 0 :=
  ⟨rfl, rfl⟩

/-- C7 (amended): a broadcast stores its payload as the circuit's
latest-broadcast cache entry iff at least one subscriber is registered at the
time of the call (with no or an empty connection set it returns before
caching, leaving the cache unchanged); after a cached broadcast, every
subscriber whose handshake is accepted is immediately sent the cached payload
as a `cached_data` message. -/
theorem C7_cache_and_replay (send : SendFn) (st : CMState) (cid : String)
    (payload : MsgData) (ws : WS) :
    (∀ conns, alistGet? st.circuit_connections (pyStrip cid) = some conns → conns ≠ [] →
      alistGet? (broadcast_message_to_circuit send st cid payload).1.last_data_cache
          (pyStrip cid) = some payload ∧
        (connect true (broadcast_message_to_circuit send st cid payload).1 ws cid).2 =
          [(ws, Json.obj [("type", Json.str "cached_data"), ("data", Json.obj payload)])]) ∧
      (alistGet? st.circuit_connections (pyStrip cid) = none →
        (broadcast_message_to_circuit send st cid payload).1.last_data_cache =
          st.last_data_cache) ∧
      (alistGet? st.circuit_connections (pyStrip cid) = some [] →
        (broadcast_message_to_circuit send st cid payload).1.last_data_cache =
          st.last_data_cache) := by
  refine ⟨?_, ?_, ?_⟩
  · intro conns hget hne
    have hcache : (broadcast_message_to_circuit send st cid payload).1.last_data_cache =
        alistSet st.last_data_cache (pyStrip cid) payload := by
      unfold broadcast_message_to_circuit
      dsimp only
      rw [hget]
      dsimp only
      rw [if_neg hne]
      dsimp only
      rw [last_data_cache_foldl_disconnect]
    have hlook : alistGet? (broadcast_message_to_circuit send st cid
        payload).1.last_data_cache (pyStrip cid) = some payload := by
      rw [hcache]
      exact alistGet?_set_self ..
    refine ⟨hlook, ?_⟩
    unfold connect
    rw [if_neg (by decide : ¬((!true) = true))]
    dsimp only
    rw [hlook]

  · intro hget
    unfold broadcast_message_to_circuit
    dsimp only
    rw [hget]
  · intro hget
    unfold broadcast_message_to_circuit
    dsimp only
    rw [hget]
    dsimp only
    rw [if_pos rfl]

/-- Manager with subscriber `1` attached to circuit `c`. -/
def cmC7 : CMState := (connect true initManager 1 "c").1

/-- Witness for C7: with one subscriber attached the broadcast payload is
cached, and the next subscriber to attach is sent it as `cached_data`. -/
theorem C7_witness :
    alistGet? (broadcast_message_to_circuit (fun _ => none) cmC7 "c"
        [("k", Json.str "v")]).1.last_data_cache (pyStrip "c") = some [("k", Json.str "v")] ∧
      (connect true (broadcast_message_to_circuit (fun _ => none) cmC7 "c"
          [("k", Json.str "v")]).1 2 "c").2 =
        [(2, Json.obj [("type", Json.str "cached_data"),
          ("data", Json.obj [("k", Json.str "v")])])] :=
  (C7_cache_and_replay (fun _ => none) cmC7 "c" [("k", Json.str "v")] 2).1 [1]
    (by rfl) (by decide)

end Karting
